import Mathlib

/-!
Verification of the stack diagnostics engine (`src/stack/diagnostics.rs`).

The Rust source is shallowly embedded: `f64` arithmetic is idealised as exact
real arithmetic (`ℝ`), `u64`/`usize` become `ℕ` with explicit `% 2 ^ 64`
where wrap-around matters, `HashMap`s become association lists or total
functions that are zero off their key set (mirroring `get(..).unwrap_or(0.0)`),
and `Vec` becomes `List`.  Casting an `f64` to `usize` truncates toward zero
and saturates below at `0`, which for our values is `Int.toNat ∘ Int.floor`.
-/

-- ============================================================================
-- SimpleRng (linear congruential generator, `SimpleRng` in the source)
-- ============================================================================

/-- State of the `SimpleRng` linear congruential generator; the `u64` state is
a natural number kept below `2 ^ 64` by every operation. -/
structure SimpleRng where
  state : ℕ
  deriving Repr, DecidableEq

/-- `SimpleRng::seed_from_u64`: state is `seed ^ 0x5DEECE66D` (bitwise xor). -/
def SimpleRng.seed_from_u64 (seed : ℕ) : SimpleRng :=
  ⟨(Nat.xor seed 0x5DEECE66D) % 2 ^ 64⟩

/-- `SimpleRng::next_u64`: one LCG step with wrapping `u64` arithmetic,
returning the new state both as the drawn value and as the next state. -/
def SimpleRng.next_u64 (r : SimpleRng) : ℕ × SimpleRng :=
  let s := (r.state * 6364136223846793005 + 1442695040888963407) % 2 ^ 64
  (s, ⟨s⟩)

/-- `SimpleRng::gen_range` on `lo..hi`: empty ranges return `lo` without
advancing the generator, otherwise `lo + next % (hi - lo)`. -/
def SimpleRng.gen_range (r : SimpleRng) (lo hi : ℕ) : ℕ × SimpleRng :=
  if hi ≤ lo then (lo, r)
  else
    let v := r.next_u64
    (lo + v.1 % (hi - lo), v.2)

/-- `SimpleRng::gen_range_f64` on `lo..hi`:
`lo + (next / u64::MAX) * (hi - lo)`, idealised over `ℝ`. -/
noncomputable def SimpleRng.gen_range_f64 (r : SimpleRng) (lo hi : ℝ) : ℝ × SimpleRng :=
  let v := r.next_u64
  (lo + ((v.1 : ℝ) / ((2 ^ 64 - 1 : ℕ) : ℝ)) * (hi - lo), v.2)

-- ============================================================================
-- Isolation forest (`IsolationTree`, `IsolationForest`, `average_path_length`)
-- ============================================================================

/-- `average_path_length(n)`: `0` for `n <= 1`, otherwise
`2 * (n.ln() + 0.5772156649) - (2 * (n - 1) / n)`.  Note the source takes the
logarithm of `n` itself, not of `n - 1`. -/
noncomputable def average_path_length (n : ℝ) : ℝ :=
  if n ≤ 1 then 0 else 2 * (Real.log n + 0.5772156649) - 2 * (n - 1) / n

/-- Rust `f64 as usize`: truncation toward zero, saturating at `0` from below
(our arguments never reach `usize::MAX`). -/
noncomputable def f64_as_usize (x : ℝ) : ℕ := (⌊x⌋).toNat

/-- The recursive isolation-tree type: internal split nodes and external
(leaf) nodes recording the size of the partition that reached them. -/
inductive IsolationTree where
  | internal (split_feature : ℕ) (split_value : ℝ) (left right : IsolationTree)
  | external (size : ℕ)

/-- `f64::EPSILON` (the machine epsilon `2 ^ (-52)` used for the degenerate
range test in tree construction). -/
noncomputable def f64_epsilon : ℝ := 1 / 2 ^ 52

/-- `IsolationTree::build`.  The recursion is structural on `max_depth`; when
`max_depth = 0` the source returns a leaf of size `data.len()` (which is also
what its empty-data branch returns there, since then `data.len() = 0`). -/
noncomputable def IsolationTree.build :
    ℕ → List (List ℝ) → SimpleRng → IsolationTree × SimpleRng
  | 0, data, rng => (.external data.length, rng)
  | maxDepth + 1, data, rng =>
    if data.isEmpty then (.external 0, rng)
    else if data.length ≤ 1 then (.external data.length, rng)
    else
      let nFeatures := (data.headD []).length
      if nFeatures = 0 then (.external data.length, rng)
      else
        let fr := rng.gen_range 0 nFeatures
        let feature := fr.1
        let rng1 := fr.2
        let values := data.filterMap (fun row => row.get? feature)
        if values.isEmpty then (.external data.length, rng1)
        else
          let minVal := values.foldl min (values.headD 0)
          let maxVal := values.foldl max (values.headD 0)
          if |maxVal - minVal| < f64_epsilon then (.external data.length, rng1)
          else
            let sv := rng1.gen_range_f64 minVal maxVal
            let part := data.partition
              (fun row => (row.get? feature).any (fun v => decide (v < sv.1)))
            if part.1.isEmpty ∨ part.2.isEmpty then (.external data.length, sv.2)
            else
              let lt := IsolationTree.build maxDepth part.1 sv.2
              let rt := IsolationTree.build maxDepth part.2 lt.2
              (.internal feature sv.1 lt.1 rt.1, rt.2)

/-- `IsolationTree::path_length`: walk to the matching child incrementing the
depth; a leaf of size `s` contributes
`current_depth + average_path_length(s) as usize`. -/
noncomputable def IsolationTree.path_length :
    IsolationTree → List ℝ → ℕ → ℕ
  | .external s, _, currentDepth => currentDepth + f64_as_usize (average_path_length s)
  | .internal feat split l r, point, currentDepth =>
    if ((point.get? feat).getD 0) < split then l.path_length point (currentDepth + 1)
    else r.path_length point (currentDepth + 1)

/-- Total number of data points held in the leaves of a tree (an observable
for how many samples the tree was built from). -/
def IsolationTree.leafSizeSum : IsolationTree → ℕ
  | .external s => s
  | .internal _ _ l r => l.leafSizeSum + r.leafSizeSum

/-- The isolation forest record (`IsolationForest` in the source). -/
structure IsolationForest where
  n_trees : ℕ
  sample_size : ℕ
  seed : ℕ
  trees : List IsolationTree
  feature_names : List String

/-- `IsolationForest::new`: empty forest with the given parameters. -/
def IsolationForest.new (nTrees sampleSize seed : ℕ) : IsolationForest :=
  ⟨nTrees, sampleSize, seed, [], []⟩

/-- One subsample of `k` points drawn with replacement: each draw picks
`data[rng.gen_range(0..data.len())]`. -/
noncomputable def drawSample (data : List (List ℝ)) :
    ℕ → SimpleRng → List (List ℝ) × SimpleRng
  | 0, rng => ([], rng)
  | k + 1, rng =>
    let i := rng.gen_range 0 data.length
    let rest := drawSample data k i.2
    (data.getD i.1 [] :: rest.1, rest.2)

/-- The `for _ in 0..n_trees` loop of `IsolationForest::fit`: draw a sample,
build one tree from it, thread the generator through. -/
noncomputable def fitLoop (data : List (List ℝ)) (sampleCount maxDepth : ℕ) :
    ℕ → SimpleRng → List IsolationTree × SimpleRng
  | 0, rng => ([], rng)
  | t + 1, rng =>
    let s := drawSample data sampleCount rng
    let b := IsolationTree.build maxDepth s.1 s.2
    let rest := fitLoop data sampleCount maxDepth t b.2
    (b.1 :: rest.1, rest.2)

/-- `IsolationForest::fit`.  Empty data returns immediately (leaving the
existing trees in place); otherwise the trees are replaced by `n_trees` new
trees, each built from `sample_size.min(data.len())` samples drawn with
replacement by the generator seeded from `seed`.  The float expression
`(sample_size as f64).log2().ceil() as usize` is exactly `Nat.clog 2`. -/
noncomputable def IsolationForest.fit (f : IsolationForest) (data : List (List ℝ)) :
    IsolationForest :=
  if data.isEmpty then f
  else
    let rng := SimpleRng.seed_from_u64 f.seed
    let maxDepth := Nat.clog 2 f.sample_size
    { f with trees :=
        (fitLoop data (min f.sample_size data.length) maxDepth f.n_trees rng).1 }

/-- `IsolationForest::score`: all-zero scores of matching length when there
are no trees or no data; otherwise `2 ^ (-avg_path_length / c(sample_size))`
per point, averaging `path_length` over all trees. -/
noncomputable def IsolationForest.score (f : IsolationForest) (data : List (List ℝ)) :
    List ℝ :=
  if f.trees.isEmpty || data.isEmpty then List.replicate data.length 0
  else
    let c_n := average_path_length f.sample_size
    data.map (fun point =>
      let avg := ((f.trees.map (fun t => (t.path_length point 0 : ℝ))).sum) /
        (f.trees.length : ℝ)
      (2 : ℝ) ^ (-avg / c_n))

-- ============================================================================
-- Error forecaster (`ErrorForecaster`, exponential smoothing)
-- ============================================================================

/-- `ErrorForecaster`: smoothing parameter, observation history, current
level. -/
structure ErrorForecaster where
  alpha : ℝ
  history : List ℝ
  level : ℝ

/-- `ErrorForecaster::new`: `alpha` is clamped into `[0, 1]`, history empty,
level `0`. -/
noncomputable def ErrorForecaster.new (alpha : ℝ) : ErrorForecaster :=
  ⟨max 0 (min alpha 1), [], 0⟩

/-- `ErrorForecaster::observe`: the first observation sets the level, later
ones smooth it as `alpha * v + (1 - alpha) * level`; `v` is always appended
to the history. -/
noncomputable def ErrorForecaster.observe (f : ErrorForecaster) (value : ℝ) :
    ErrorForecaster :=
  let level := if f.history.isEmpty then value
    else f.alpha * value + (1 - f.alpha) * f.level
  { f with level := level, history := f.history ++ [value] }

/-- `ErrorForecaster::current_level`. -/
def ErrorForecaster.current_level (f : ErrorForecaster) : ℝ := f.level

-- ============================================================================
-- Health model, anomalies, and the component registry
-- ============================================================================

/-- Modelled from the spec: `QualityGrade`, the closed letter-grade enum of the
external scoring collaborator (its definition lives outside the diagnostics
module); only its closedness and the `F` default matter here. -/
inductive QualityGrade where
  | APlus | A | AMinus | BPlus | B | C | D | F
  deriving Repr, DecidableEq

/-- Modelled from the spec: `StackLayer`, the closed enum of
deployment/architectural tiers (defined outside the diagnostics module);
diagnostics only carries it along. -/
inductive StackLayer where
  | Compute | Ml | DataMlops | Orchestration | Other
  deriving Repr, DecidableEq

/-- `HealthStatus`: Andon-style component health. -/
inductive HealthStatus where
  | Green | Yellow | Red | Unknown
  deriving Repr, DecidableEq

/-- `AndonStatus`: stack-wide Andon board status. -/
inductive AndonStatus where
  | Green | Yellow | Red | Unknown
  deriving Repr, DecidableEq

/-- `ComponentMetrics`: quality metrics of one component (`f64` fields as
`ℝ`, `satd_count: u32` as `ℕ`). -/
structure ComponentMetrics where
  demo_score : ℝ
  coverage : ℝ
  mutation_score : ℝ
  complexity_avg : ℝ
  satd_count : ℕ
  dead_code_pct : ℝ
  grade : QualityGrade

/-- `ComponentMetrics::default()`: all numeric fields zero, grade `F`. -/
def ComponentMetrics.default : ComponentMetrics :=
  ⟨0, 0, 0, 0, 0, 0, QualityGrade.F⟩

/-- `ComponentNode`: one component of the stack knowledge graph. -/
structure ComponentNode where
  name : String
  version : String
  layer : StackLayer
  health : HealthStatus
  metrics : ComponentMetrics

/-- `ComponentNode::new`: health starts `Unknown`, metrics default. -/
def ComponentNode.new (name version : String) (layer : StackLayer) : ComponentNode :=
  ⟨name, version, layer, HealthStatus.Unknown, ComponentMetrics.default⟩

/-- `AnomalyCategory`: closed enum of anomaly categories. -/
inductive AnomalyCategory where
  | QualityRegression | CoverageDrop | BuildTimeSpike | DependencyRisk
  | ComplexityIncrease | Other
  deriving Repr, DecidableEq

/-- `Anomaly`: one detected anomaly. -/
structure Anomaly where
  component : String
  score : ℝ
  category : AnomalyCategory
  description : String
  evidence : List String
  recommendation : Option String

/-- `Anomaly::new`: empty evidence, no recommendation. -/
def Anomaly.new (component : String) (score : ℝ) (category : AnomalyCategory)
    (description : String) : Anomaly :=
  ⟨component, score, category, description, [], none⟩

/-- `Anomaly::is_critical`: `score > 0.8`. -/
def Anomaly.is_critical (a : Anomaly) : Prop := a.score > 0.8

/-- Modelled from the spec: `DependencyGraph`, the external graph collaborator
(defined outside the diagnostics module), exposing per crate its name and the
list of paiml dependency names. -/
structure CrateInfo where
  name : String
  paiml_dependencies : List String

/-- Modelled from the spec: the dependency graph is the list of crates exposed
by `all_crates()`. -/
structure DependencyGraph where
  all_crates : List CrateInfo

/-- `GraphMetrics`: the computed graph-level metrics.  The `HashMap` fields
are association lists keyed by component name. -/
structure GraphMetrics where
  pagerank : List (String × ℝ)
  betweenness : List (String × ℝ)
  clustering : List (String × ℝ)
  communities : List (String × ℕ)
  depth_map : List (String × ℕ)
  total_nodes : ℕ
  total_edges : ℕ
  density : ℝ
  avg_degree : ℝ
  max_depth : ℕ

/-- `GraphMetrics::default()`: empty maps and zero scalars. -/
def GraphMetrics.default : GraphMetrics :=
  ⟨[], [], [], [], [], 0, 0, 0, 0, 0⟩

/-- `StackDiagnostics`: the diagnostics engine state.  The component registry
`HashMap<String, ComponentNode>` is an association list with unique keys; its
iteration order is one fixed determinization of the hash map's, which no
claim proved here depends on. -/
structure StackDiagnostics where
  components : List (String × ComponentNode)
  graph : Option DependencyGraph
  metrics : GraphMetrics
  anomalies : List Anomaly

/-- `StackDiagnostics::new`. -/
def StackDiagnostics.new : StackDiagnostics :=
  ⟨[], none, GraphMetrics.default, []⟩

/-- `StackDiagnostics::add_component`: `HashMap::insert` keyed by the node's
name — replace the entry with that key if present, otherwise add it. -/
def StackDiagnostics.add_component (d : StackDiagnostics) (node : ComponentNode) :
    StackDiagnostics :=
  if d.components.any (fun p => p.1 = node.name) then
    { d with components :=
        d.components.map (fun p => if p.1 = node.name then (p.1, node) else p) }
  else
    { d with components := (node.name, node) :: d.components }

/-- `StackDiagnostics::set_graph`. -/
def StackDiagnostics.set_graph (d : StackDiagnostics) (g : DependencyGraph) :
    StackDiagnostics :=
  { d with graph := some g }

/-- `StackDiagnostics::add_anomaly`. -/
def StackDiagnostics.add_anomaly (d : StackDiagnostics) (a : Anomaly) :
    StackDiagnostics :=
  { d with anomalies := d.anomalies ++ [a] }

-- ============================================================================
-- Graph analytics: adjacency, PageRank, betweenness, depth
-- ============================================================================

/-- Association-list lookup returning `[]` for absent keys (the adjacency
`HashMap`'s `get` composed with the unwraps used at its call sites). -/
def lookupAdj (adjacency : List (String × List String)) (k : String) : List String :=
  match adjacency.find? (fun p => p.1 = k) with
  | some p => p.2
  | none => []

/-- `adjacency.entry(src).or_default().push(tgt)`: append `tgt` to `src`'s
list, creating the entry if absent. -/
def pushEdge (adjacency : List (String × List String)) (src tgt : String) :
    List (String × List String) :=
  if adjacency.any (fun p => p.1 = src) then
    adjacency.map (fun p => if p.1 = src then (p.1, p.2 ++ [tgt]) else p)
  else
    adjacency ++ [(src, [tgt])]

/-- `StackDiagnostics::build_adjacency`: every registered component starts
with an empty out-list; for every crate of the dependency graph, each
dependency whose name is a registered component is pushed onto the crate's
entry (created on demand, so unregistered crates can appear as extra keys,
always with nonempty lists). -/
def StackDiagnostics.build_adjacency (d : StackDiagnostics) :
    List (String × List String) :=
  let init := d.components.map (fun p => (p.1, ([] : List String)))
  match d.graph with
  | none => init
  | some g =>
    g.all_crates.foldl (fun adj ci =>
      ci.paiml_dependencies.foldl (fun adj dep =>
        if d.components.any (fun p => p.1 = dep) then pushEdge adj ci.name dep
        else adj) adj) init

/-- One synchronous update of `compute_pagerank`'s power iteration.  The
score map holds exactly the component names as keys and reads of absent keys
give `0.0` (`unwrap_or(&0.0)`), so scores are total functions vanishing off
`nodes`.  Dangling contribution, incoming-rank term and teleport term are as
in the source; the iteration over the adjacency map is indexed by its entry
list. -/
noncomputable def pagerankStep (nodes : List String)
    (adjacency : List (String × List String)) (damping : ℝ)
    (scores : String → ℝ) : String → ℝ :=
  let teleport := (1 - damping) / (nodes.length : ℝ)
  let danglingSum :=
    ((adjacency.filter (fun p => p.2.isEmpty)).map (fun p => scores p.1)).sum
  let danglingContrib := damping * danglingSum / (nodes.length : ℝ)
  fun node =>
    if node ∈ nodes then
      let incoming := (adjacency.map (fun p =>
        if node ∈ p.2 ∧ 0 < p.2.length then scores p.1 / (p.2.length : ℝ)
        else 0)).sum
      teleport + damping * incoming + danglingContrib
    else 0

/-- The `for _ in 0..max_iter` loop of `compute_pagerank`: replace the scores
by the stepped scores, stopping early when the total absolute change over the
component keys drops below `1e-6` (checked after the replacement). -/
noncomputable def pagerankLoop (nodes : List String)
    (adjacency : List (String × List String)) (damping : ℝ) :
    ℕ → (String → ℝ) → (String → ℝ)
  | 0, scores => scores
  | k + 1, scores =>
    let newScores := pagerankStep nodes adjacency damping scores
    let diff := (nodes.map (fun i => |newScores i - scores i|)).sum
    if diff < 1e-6 then newScores else pagerankLoop nodes adjacency damping k newScores

/-- `StackDiagnostics::compute_pagerank` (score map only): every node starts
at `1 / n`; `n = 0` leaves the previously stored (empty) map. -/
noncomputable def compute_pagerank (nodes : List String)
    (adjacency : List (String × List String)) (damping : ℝ) (maxIter : ℕ) :
    String → ℝ :=
  if nodes.length = 0 then fun _ => 0
  else pagerankLoop nodes adjacency damping maxIter
    (fun k => if k ∈ nodes then 1 / (nodes.length : ℝ) else 0)

/-- Pointwise update of a total-function map (`HashMap` insert / `get_mut`). -/
def fupdate {β : Type} (f : String → β) (k : String) (v : β) : String → β :=
  fun x => if x = k then v else f x

/-- Mutable state of one Brandes BFS traversal: distances (`-1` = not seen),
path counts, predecessor lists, the FIFO queue and the visit order. -/
structure BrandesState where
  dist : String → ℤ
  sigma : String → ℝ
  preds : String → List String
  queue : List String
  order : List String

/-- Body of the `for w in neighbors` loop in `compute_betweenness`'s BFS: if
`w` is unseen, set its distance and enqueue it; then (against the possibly
updated distance) accumulate `sigma` and record the predecessor. -/
noncomputable def brandesNeighbor (v : String) (s : BrandesState) (w : String) :
    BrandesState :=
  let d_v := s.dist v
  let d_w := s.dist w
  let s := if d_w < 0 then
    { s with dist := fupdate s.dist w (d_v + 1), queue := s.queue ++ [w] }
    else s
  if s.dist w = d_v + 1 then
    { s with sigma := fupdate s.sigma w (s.sigma w + s.sigma v),
             preds := fupdate s.preds w (s.preds w ++ [v]) }
  else s

/-- The `while !queue.is_empty()` BFS loop (strict FIFO via `queue.remove(0)`).
Each node enters the queue at most once (its distance is set when pushed), so
`nodes.length` iterations of fuel always suffice to drain the queue. -/
noncomputable def brandesVisit (adjacency : List (String × List String)) :
    ℕ → BrandesState → BrandesState
  | 0, s => s
  | fuel + 1, s =>
    match s.queue with
    | [] => s
    | v :: rest =>
      let s := { s with queue := rest, order := s.order ++ [v] }
      let s := (lookupAdj adjacency v).foldl (brandesNeighbor v) s
      brandesVisit adjacency fuel s

/-- Back-propagation of dependencies in reverse BFS-finish order: each
predecessor `v` of `w` gains `(sigma v / sigma w) * (1 + delta w)` (guarded
by `sigma w > 0`), and non-source nodes accumulate their `delta` into the
global betweenness. -/
noncomputable def brandesBack (source : String) (st : BrandesState)
    (betweenness : String → ℝ) : String → ℝ :=
  (st.order.reverse.foldl (fun (acc : (String → ℝ) × (String → ℝ)) w =>
    let delta := (st.preds w).foldl (fun d v =>
      if st.sigma w > 0 then
        fupdate d v (d v + (st.sigma v / st.sigma w) * (1 + d w))
      else d) acc.1
    let btw := if w ≠ source then fupdate acc.2 w (acc.2 w + delta w) else acc.2
    (delta, btw)) ((fun _ => 0), betweenness)).2

/-- `StackDiagnostics::compute_betweenness`: one Brandes traversal per source
(distances `-1`, `sigma` `0`, source at distance `0` with `sigma` `1`),
accumulated and finally normalized by `(n-1)*(n-2)` when `n > 2`, else by
`1`. -/
noncomputable def compute_betweenness (nodes : List String)
    (adjacency : List (String × List String)) : List (String × ℝ) :=
  let n := nodes.length
  let btwFun := nodes.foldl (fun btw source =>
    let st : BrandesState :=
      { dist := fun k => if k = source then 0 else -1
        sigma := fun k => if k = source then 1 else 0
        preds := fun _ => []
        queue := [source]
        order := [] }
    brandesBack source (brandesVisit adjacency nodes.length st) btw)
    (fun _ => 0)
  let norm : ℝ := if 2 < n then (((n - 1) * (n - 2) : ℕ) : ℝ) else 1
  nodes.map (fun k => (k, btwFun k / norm))

/-- The traversal loop of `compute_depth`.  The source pushes to and pops
from the back of a `Vec`; LIFO order is modelled by consing at the front and
popping the head, so within one visit the neighbors are consed in reverse.
A node is pushed at most once per in-edge plus once as a root, so
`nodes + total edge count` fuel always drains the queue. -/
def depthLoop (adjacency : List (String × List String)) :
    ℕ → List (String × ℕ) → List (String × ℕ) → List (String × ℕ)
  | 0, _, depth => depth
  | fuel + 1, queue, depth =>
    match queue with
    | [] => depth
    | (node, d) :: rest =>
      if depth.any (fun p => p.1 = node) then depthLoop adjacency fuel rest depth
      else
        let depth := depth ++ [(node, d)]
        let pushes := ((lookupAdj adjacency node).filter
          (fun nb => ¬ depth.any (fun p => p.1 = nb))).reverse.map (fun nb => (nb, d + 1))
        depthLoop adjacency fuel (pushes ++ rest) depth

/-- `StackDiagnostics::compute_depth`: roots are the nodes with no incoming
retained edge; traverse from all roots tracking the hop count at push time
(first visit wins), then default every unvisited node to depth `0`. -/
def compute_depth (nodes : List String)
    (adjacency : List (String × List String)) : List (String × ℕ) :=
  let hasIncoming := fun n => adjacency.any (fun p => p.2.any (fun t => t = n))
  let roots := nodes.filter (fun n => ¬ hasIncoming n)
  let fuel := nodes.length + (adjacency.map (fun p => p.2.length)).sum + 1
  let afterLoop := depthLoop adjacency fuel
    (roots.reverse.map (fun r => (r, 0))) []
  nodes.foldl (fun dp node =>
    if dp.any (fun p => p.1 = node) then dp else dp ++ [(node, 0)]) afterLoop

/-- `StackDiagnostics::compute_metrics`: no-op on an empty registry (the
`Result` in the source is always `Ok`, so the embedding is total); otherwise
recompute PageRank, betweenness, depth and the scalar graph metrics from the
current adjacency.  `clustering` and `communities` are never touched. -/
noncomputable def StackDiagnostics.compute_metrics (d : StackDiagnostics) :
    StackDiagnostics :=
  let n := d.components.length
  if n = 0 then d
  else
    let adjacency := d.build_adjacency
    let nodes := d.components.map Prod.fst
    let pagerankFun := compute_pagerank nodes adjacency 0.85 100
    let total_edges := (adjacency.map (fun p => p.2.length)).sum
    let max_edges := n * (n - 1)
    let depth_map := compute_depth nodes adjacency
    { d with metrics :=
      { pagerank := nodes.map (fun k => (k, pagerankFun k))
        betweenness := compute_betweenness nodes adjacency
        clustering := d.metrics.clustering
        communities := d.metrics.communities
        depth_map := depth_map
        total_nodes := n
        total_edges := total_edges
        density := if 0 < max_edges then (total_edges : ℝ) / (max_edges : ℝ) else 0
        avg_degree := if 0 < n then (total_edges : ℝ) / (n : ℝ) else 0
        max_depth := (depth_map.map Prod.snd).foldl max 0 } }

-- ============================================================================
-- Health summary and Andon status
-- ============================================================================

/-- `HealthSummary`: counts by status, average scores, overall Andon status. -/
structure HealthSummary where
  total_components : ℕ
  green_count : ℕ
  yellow_count : ℕ
  red_count : ℕ
  unknown_count : ℕ
  avg_demo_score : ℝ
  avg_coverage : ℝ
  andon_status : AndonStatus

/-- `HealthSummary::all_healthy`: no red, no yellow, and every component
green. -/
def HealthSummary.all_healthy (s : HealthSummary) : Bool :=
  s.red_count == 0 && s.yellow_count == 0 && s.green_count == s.total_components

/-- `StackDiagnostics::compute_andon_status`: any red ⇒ `Red`; else any
yellow ⇒ `Yellow`; else all green and nonempty ⇒ `Green`; else `Unknown`. -/
def compute_andon_status (green yellow red total : ℕ) : AndonStatus :=
  if 0 < red then AndonStatus.Red
  else if 0 < yellow then AndonStatus.Yellow
  else if green = total ∧ 0 < total then AndonStatus.Green
  else AndonStatus.Unknown

/-- `StackDiagnostics::health_summary`: count statuses over the registry
values, average `demo_score` and `coverage` (`0` on an empty registry), and
derive the Andon status; `unknown_count` is the saturating remainder. -/
noncomputable def StackDiagnostics.health_summary (d : StackDiagnostics) :
    HealthSummary :=
  let vals := d.components.map Prod.snd
  let total := d.components.length
  let green := (vals.filter (fun c => c.health = HealthStatus.Green)).length
  let yellow := (vals.filter (fun c => c.health = HealthStatus.Yellow)).length
  let red := (vals.filter (fun c => c.health = HealthStatus.Red)).length
  { total_components := total
    green_count := green
    yellow_count := yellow
    red_count := red
    unknown_count := total - (green + yellow + red)
    avg_demo_score := if 0 < total then
      ((vals.map (fun c => c.metrics.demo_score)).sum) / (total : ℝ) else 0
    avg_coverage := if 0 < total then
      ((vals.map (fun c => c.metrics.coverage)).sum) / (total : ℝ) else 0
    andon_status := compute_andon_status green yellow red total }

/-- The states of the engine reachable through its public mutating API
(`new`, `add_component`, `set_graph`, `add_anomaly`, `compute_metrics`);
the remaining public operations are read-only. -/
inductive StackDiagnostics.Reachable : StackDiagnostics → Prop
  | new : StackDiagnostics.Reachable StackDiagnostics.new
  | add_component {d} (node : ComponentNode) :
      StackDiagnostics.Reachable d → StackDiagnostics.Reachable (d.add_component node)
  | set_graph {d} (g : DependencyGraph) :
      StackDiagnostics.Reachable d → StackDiagnostics.Reachable (d.set_graph g)
  | add_anomaly {d} (a : Anomaly) :
      StackDiagnostics.Reachable d → StackDiagnostics.Reachable (d.add_anomaly a)
  | compute_metrics {d} :
      StackDiagnostics.Reachable d → StackDiagnostics.Reachable d.compute_metrics

-- ============================================================================
-- Helper lemmas: isolation forest structure
-- ============================================================================

lemma length_filter_add_length_filter_not {α : Type} (l : List α) (p : α → Bool) :
    (l.filter p).length + (l.filter (fun a => !p a)).length = l.length := by
  induction l with
  | nil => rfl
  | cons a t ih => by_cases h : p a <;> simp [List.filter_cons, h] <;> omega

lemma build_leafSizeSum (d : ℕ) :
    ∀ (data : List (List ℝ)) (rng : SimpleRng),
      ((IsolationTree.build d data rng).1).leafSizeSum = data.length := by
  induction d with
  | zero => intro data rng; rfl
  | succ n ih =>
    intro data rng
    simp only [IsolationTree.build]
    split
    · next h => simp [IsolationTree.leafSizeSum, List.isEmpty_iff.mp h]
    · split
      · simp [IsolationTree.leafSizeSum]
      · split
        · simp [IsolationTree.leafSizeSum]
        · split
          · simp [IsolationTree.leafSizeSum]
          · split
            · simp [IsolationTree.leafSizeSum]
            · split
              · simp [IsolationTree.leafSizeSum]
              · simp only [IsolationTree.leafSizeSum, ih]
                rw [List.partition_eq_filter_filter]
                exact length_filter_add_length_filter_not _ _

lemma drawSample_length (data : List (List ℝ)) (k : ℕ) (rng : SimpleRng) :
    (drawSample data k rng).1.length = k := by
  induction k generalizing rng with
  | zero => rfl
  | succ n ih => simp [drawSample, ih]

lemma fitLoop_leaf_sizes (data : List (List ℝ)) (sc md t : ℕ) (rng : SimpleRng) :
    ((fitLoop data sc md t rng).1.map IsolationTree.leafSizeSum)
      = List.replicate t sc := by
  induction t generalizing rng with
  | zero => rfl
  | succ n ih =>
    simp [fitLoop, ih, build_leafSizeSum, drawSample_length, List.replicate_succ]

lemma fitLoop_length (data : List (List ℝ)) (sc md t : ℕ) (rng : SimpleRng) :
    (fitLoop data sc md t rng).1.length = t := by
  have h := congrArg List.length (fitLoop_leaf_sizes data sc md t rng)
  simpa using h

lemma fit_trees_eq (f : IsolationForest) (data : List (List ℝ)) (h : data ≠ []) :
    (f.fit data).trees
      = (fitLoop data (min f.sample_size data.length) (Nat.clog 2 f.sample_size)
          f.n_trees (SimpleRng.seed_from_u64 f.seed)).1 := by
  simp [IsolationForest.fit, h]

-- ============================================================================
-- C3: tree count and per-tree sample count of `fit`
-- ============================================================================

/-- C3 counterexample: a forest with `subsample_size = 5` fitted on 2 data
points builds its single tree from only 2 samples (the leaf sizes of the
tree sum to 2), not from exactly 5. -/
theorem fit_sample_size_counterexample :
    (((IsolationForest.new 1 5 0).fit [[(1 : ℝ)], [(2 : ℝ)]]).trees.map
      IsolationTree.leafSizeSum) = [2] ∧ (2 : ℕ) ≠ 5 := by
  constructor
  · rw [fit_trees_eq _ _ (by simp), fitLoop_leaf_sizes]
    norm_num [IsolationForest.new, List.replicate]
  · decide

/-- C3 (amended): on nonempty data, `fit` builds exactly `n_trees` trees,
each built from exactly `min sample_size data.length` samples drawn with
replacement by the seeded generator (each tree's leaf sizes sum to that
count) — not from exactly `sample_size` samples. -/
theorem fit_tree_count_and_sample_size (f : IsolationForest)
    (data : List (List ℝ)) (h : data ≠ []) :
    (f.fit data).trees.length = f.n_trees ∧
      ∀ t ∈ (f.fit data).trees,
        t.leafSizeSum = min f.sample_size data.length := by
  rw [fit_trees_eq f data h]
  refine ⟨fitLoop_length _ _ _ _ _, fun t ht => ?_⟩
  have hmem : t.leafSizeSum ∈
      ((fitLoop data (min f.sample_size data.length) (Nat.clog 2 f.sample_size)
        f.n_trees (SimpleRng.seed_from_u64 f.seed)).1.map IsolationTree.leafSizeSum) :=
    List.mem_map_of_mem _ ht
  rw [fitLoop_leaf_sizes] at hmem
  exact (List.eq_of_mem_replicate hmem)

theorem fit_tree_count_and_sample_size_witness :
    (([[(0 : ℝ)]] : List (List ℝ)) ≠ []) ∧
      ((IsolationForest.new 2 1 0).fit [[(0 : ℝ)]]).trees.length = 2 ∧
      ∀ t ∈ ((IsolationForest.new 2 1 0).fit [[(0 : ℝ)]]).trees,
        t.leafSizeSum = 1 := by
  refine ⟨by simp, (fit_tree_count_and_sample_size _ _ (by simp)).1, fun t ht => ?_⟩
  have h := (fit_tree_count_and_sample_size (IsolationForest.new 2 1 0)
    [[(0 : ℝ)]] (by simp)).2 t ht
  simpa using h

-- ============================================================================
-- C4: `fit` on empty data
-- ============================================================================

/-- C4 counterexample: fitting with empty data does not reset a previously
fitted forest — after `fit([[0]])` then `fit([])`, the forest still has its
one tree rather than zero trees. -/
theorem fit_empty_counterexample :
    ((((IsolationForest.new 1 1 0).fit [[(0 : ℝ)]]).fit []).trees.length = 1) ∧
      ((((IsolationForest.new 1 1 0).fit [[(0 : ℝ)]]).fit []).trees.length ≠ 0) := by
  have hnoop : ((IsolationForest.new 1 1 0).fit [[(0 : ℝ)]]).fit []
      = (IsolationForest.new 1 1 0).fit [[(0 : ℝ)]] := rfl
  have hlen : (((IsolationForest.new 1 1 0).fit [[(0 : ℝ)]])).trees.length = 1 := by
    rw [fit_trees_eq _ _ (by simp)]
    exact fitLoop_length _ _ _ _ _
  rw [hnoop, hlen]
  exact ⟨rfl, by decide⟩

/-- C4 (amended): `fit` with empty data is a no-op — it leaves the trees
(and everything else) unchanged; in particular a freshly constructed forest
still has zero trees afterwards, while a previously fitted forest keeps its
trees. -/
theorem fit_empty_noop (f : IsolationForest) (n s sd : ℕ) :
    f.fit [] = f ∧ ((IsolationForest.new n s sd).fit []).trees = [] :=
  ⟨rfl, rfl⟩

-- ============================================================================
-- C5: `score` guard for zero trees / empty data
-- ============================================================================

/-- C5: with no trees or no data, `score` returns an all-zero vector whose
length matches the input length. -/
theorem score_zero_guard (f : IsolationForest) (data : List (List ℝ))
    (h : f.trees = [] ∨ data = []) :
    f.score data = List.replicate data.length 0 := by
  rcases h with h | h <;> simp [IsolationForest.score, h]

theorem score_zero_guard_witness :
    ((IsolationForest.new 1 2 3).trees = [] ∨ ([[(5 : ℝ)]] : List (List ℝ)) = []) ∧
      (IsolationForest.new 1 2 3).score [[(5 : ℝ)]] = List.replicate 1 0 :=
  ⟨Or.inl rfl, score_zero_guard _ _ (Or.inl rfl)⟩

-- ============================================================================
-- C6: determinism of `fit` and `score`
-- ============================================================================

/-- C6: two independently constructed forests with identical parameters,
fitted on the same data, produce identical score vectors on any common
input — all randomness flows from the instance-owned seeded generator, so
fit and score are deterministic functions of seed and inputs. -/
theorem fit_score_deterministic (t s sd : ℕ) (data input : List (List ℝ))
    (f g : IsolationForest) (hf : f = IsolationForest.new t s sd)
    (hg : g = IsolationForest.new t s sd) :
    (f.fit data).score input = (g.fit data).score input := by
  subst hf; subst hg; rfl

theorem fit_score_deterministic_witness :
    ((IsolationForest.new 1 1 0).fit [[(0 : ℝ)]]).score [[(0 : ℝ)]]
      = ((IsolationForest.new 1 1 0).fit [[(0 : ℝ)]]).score [[(0 : ℝ)]] :=
  fit_score_deterministic 1 1 0 [[(0 : ℝ)]] [[(0 : ℝ)]] _ _ rfl rfl

-- ============================================================================
-- C9: exponential smoothing of `observe`
-- ============================================================================

/-- C9: the first `observe(v)` sets the level to `v`; every later
`observe(v)` sets it to `alpha * v + (1 - alpha) * level`; consequently with
alpha = 0.5 and observations [100, 80] the current level is 90. -/
theorem observe_level (f : ErrorForecaster) (v : ℝ) :
    (f.history = [] → (f.observe v).level = v) ∧
      (f.history ≠ [] →
        (f.observe v).level = f.alpha * v + (1 - f.alpha) * f.level) ∧
      (((ErrorForecaster.new 0.5).observe 100).observe 80).current_level = 90 := by
  refine ⟨fun h => by simp [ErrorForecaster.observe, h],
    fun h => by simp [ErrorForecaster.observe, h], ?_⟩
  have halpha : (ErrorForecaster.new 0.5).alpha = 0.5 := by
    rw [ErrorForecaster.new]
    norm_num
  simp [ErrorForecaster.observe, ErrorForecaster.current_level,
    ErrorForecaster.new, halpha]
  norm_num

theorem observe_level_witness :
    ((ErrorForecaster.new 0.5).history = []) ∧
      ((ErrorForecaster.new 0.5).observe 100).level = 100 :=
  ⟨rfl, (observe_level (ErrorForecaster.new 0.5) 100).1 rfl⟩

-- ============================================================================
-- C10: criticality threshold of anomalies
-- ============================================================================

/-- C10: an anomaly is critical exactly when its score strictly exceeds 0.8;
a score of exactly 0.8 is not critical, 0.85 is. -/
theorem is_critical_iff :
    (∀ a : Anomaly, a.is_critical ↔ a.score > 0.8) ∧
      ¬ (Anomaly.new "c" 0.8 AnomalyCategory.Other "d").is_critical ∧
      (Anomaly.new "c" 0.85 AnomalyCategory.Other "d").is_critical := by
  refine ⟨fun a => Iff.rfl, ?_, ?_⟩
  · norm_num [Anomaly.is_critical, Anomaly.new]
  · norm_num [Anomaly.is_critical, Anomaly.new]

-- ============================================================================
-- C1: the leaf contribution of `path_length` and `average_path_length`
-- ============================================================================

/-- C1 counterexample: at `n = 2` the helper `average_path_length` differs
from the claimed `2 * (ln(n-1) + γ) - 2*(n-1)/n` — the source takes the
logarithm of `n`, not of `n - 1`. -/
theorem average_path_length_counterexample :
    average_path_length 2
      ≠ 2 * (Real.log (2 - 1) + 0.5772156649) - 2 * (2 - 1) / 2 := by
  intro h
  rw [average_path_length, if_neg (by norm_num : ¬ ((2 : ℝ) ≤ 1))] at h
  have h1 : ((2 : ℝ) - 1) = 1 := by norm_num
  rw [h1, Real.log_one] at h
  have hpos := Real.log_pos (by norm_num : (1 : ℝ) < 2)
  linarith

/-- C1 (amended): a leaf of size `s` reached at depth `d` contributes
`d + ⌊c(s)⌋` (the `as usize` cast truncates toward zero), where
`c(n) = 2 * (ln n + 0.5772156649) - 2*(n-1)/n` for `n > 1` — with `ln n`,
not `ln (n-1)` — and `c(n) = 0` for `n ≤ 1`. -/
theorem path_length_leaf_formula :
    (∀ (s : ℕ) (p : List ℝ) (d : ℕ),
        (IsolationTree.external s).path_length p d
          = d + (⌊average_path_length (s : ℝ)⌋).toNat) ∧
      (∀ n : ℝ, 1 < n →
        average_path_length n
          = 2 * (Real.log n + 0.5772156649) - 2 * (n - 1) / n) ∧
      (∀ n : ℝ, n ≤ 1 → average_path_length n = 0) := by
  refine ⟨fun s p d => rfl, fun n hn => ?_, fun n hn => ?_⟩
  · rw [average_path_length, if_neg (not_le.mpr hn)]
  · rw [average_path_length, if_pos hn]

theorem path_length_leaf_formula_witness :
    ((IsolationTree.external 2).path_length [] 0
        = 0 + (⌊average_path_length ((2 : ℕ) : ℝ)⌋).toNat) ∧
      ((1 : ℝ) < 2 ∧ average_path_length 2
        = 2 * (Real.log 2 + 0.5772156649) - 2 * (2 - 1) / 2) ∧
      ((1 : ℝ) ≤ 1 ∧ average_path_length 1 = 0) :=
  ⟨path_length_leaf_formula.1 2 [] 0,
    ⟨by norm_num, path_length_leaf_formula.2.1 2 (by norm_num)⟩,
    ⟨le_refl 1, path_length_leaf_formula.2.2 1 (by norm_num)⟩⟩

-- ============================================================================
-- C8: Andon escalation in `health_summary`
-- ============================================================================

lemma filter_length_pos_iff {α : Type} (l : List α) (p : α → Bool) :
    0 < (l.filter p).length ↔ ∃ a ∈ l, p a := by
  rw [List.length_pos, Ne, List.filter_eq_nil_iff]
  push_neg
  simp

lemma filter_length_eq_zero_iff {α : Type} (l : List α) (p : α → Bool) :
    (l.filter p).length = 0 ↔ ∀ a ∈ l, ¬ p a := by
  rw [List.length_eq_zero, List.filter_eq_nil_iff]

/-- C8: `health_summary` escalates by worst status: any red component gives
`AndonStatus.Red` (and `all_healthy` is false); otherwise any yellow gives
`Yellow`; otherwise a nonempty all-green registry gives `Green`; in every
remaining case the status is `Unknown`. -/
theorem andon_escalation (d : StackDiagnostics) :
    ((∃ p ∈ d.components, p.2.health = HealthStatus.Red) →
        d.health_summary.andon_status = AndonStatus.Red ∧
          d.health_summary.all_healthy = false) ∧
      ((∀ p ∈ d.components, p.2.health ≠ HealthStatus.Red) →
        (∃ p ∈ d.components, p.2.health = HealthStatus.Yellow) →
        d.health_summary.andon_status = AndonStatus.Yellow) ∧
      (d.components ≠ [] →
        (∀ p ∈ d.components, p.2.health = HealthStatus.Green) →
        d.health_summary.andon_status = AndonStatus.Green) ∧
      ((∀ p ∈ d.components, p.2.health ≠ HealthStatus.Red) →
        (∀ p ∈ d.components, p.2.health ≠ HealthStatus.Yellow) →
        (d.components = [] ∨ ∃ p ∈ d.components, p.2.health ≠ HealthStatus.Green) →
        d.health_summary.andon_status = AndonStatus.Unknown) := by
  have hval : ∀ (st : HealthStatus),
      ((∃ p ∈ d.components, p.2.health = st) ↔
        ∃ c ∈ d.components.map Prod.snd, c.health = st) := by
    intro st
    constructor
    · rintro ⟨p, hp, hst⟩
      exact ⟨p.2, List.mem_map_of_mem _ hp, hst⟩
    · rintro ⟨c, hc, hst⟩
      obtain ⟨p, hp, rfl⟩ := List.mem_map.mp hc
      exact ⟨p, hp, hst⟩
  refine ⟨?_, ?_, ?_, ?_⟩
  · intro hred
    have hpos : 0 < ((d.components.map Prod.snd).filter
        (fun c => c.health = HealthStatus.Red)).length := by
      rw [filter_length_pos_iff]
      simpa using (hval HealthStatus.Red).mp hred
    constructor
    · simp only [StackDiagnostics.health_summary, compute_andon_status]
      rw [if_pos hpos]
    · simp only [StackDiagnostics.health_summary, HealthSummary.all_healthy]
      have : ((d.components.map Prod.snd).filter
          (fun c => c.health = HealthStatus.Red)).length ≠ 0 :=
        Nat.pos_iff_ne_zero.mp hpos
      simp [this]
  · intro hnred hyellow
    have hr0 : ((d.components.map Prod.snd).filter
        (fun c => c.health = HealthStatus.Red)).length = 0 := by
      rw [filter_length_eq_zero_iff]
      intro c hc
      simp only [List.mem_map] at hc
      obtain ⟨p, hp, rfl⟩ := hc
      simpa using hnred p hp
    have hy : 0 < ((d.components.map Prod.snd).filter
        (fun c => c.health = HealthStatus.Yellow)).length := by
      rw [filter_length_pos_iff]
      simpa using (hval HealthStatus.Yellow).mp hyellow
    simp only [StackDiagnostics.health_summary, compute_andon_status]
    rw [if_neg (by omega), if_pos hy]
  · intro hne hgreen
    have hr0 : ((d.components.map Prod.snd).filter
        (fun c => c.health = HealthStatus.Red)).length = 0 := by
      rw [filter_length_eq_zero_iff]
      intro c hc
      simp only [List.mem_map] at hc
      obtain ⟨p, hp, rfl⟩ := hc
      simp [hgreen p hp]
    have hy0 : ((d.components.map Prod.snd).filter
        (fun c => c.health = HealthStatus.Yellow)).length = 0 := by
      rw [filter_length_eq_zero_iff]
      intro c hc
      simp only [List.mem_map] at hc
      obtain ⟨p, hp, rfl⟩ := hc
      simp [hgreen p hp]
    have hg : ((d.components.map Prod.snd).filter
        (fun c => c.health = HealthStatus.Green)).length
          = d.components.length := by
      have := (@List.filter_length_eq_length _
        (fun c => decide (c.health = HealthStatus.Green))
        (d.components.map Prod.snd)).mpr ?_
      · simpa using this
      · intro c hc
        simp only [List.mem_map] at hc
        obtain ⟨p, hp, rfl⟩ := hc
        simp [hgreen p hp]
    have htot : 0 < d.components.length := List.length_pos.mpr hne
    simp only [StackDiagnostics.health_summary, compute_andon_status]
    rw [if_neg (by omega), if_neg (by omega),
      if_pos (⟨by simpa using hg, htot⟩ :
        ((d.components.map Prod.snd).filter
          (fun c => c.health = HealthStatus.Green)).length
            = d.components.length ∧ 0 < d.components.length)]
  · intro hnred hnyel hrest
    have hr0 : ((d.components.map Prod.snd).filter
        (fun c => c.health = HealthStatus.Red)).length = 0 := by
      rw [filter_length_eq_zero_iff]
      intro c hc
      simp only [List.mem_map] at hc
      obtain ⟨p, hp, rfl⟩ := hc
      simpa using hnred p hp
    have hy0 : ((d.components.map Prod.snd).filter
        (fun c => c.health = HealthStatus.Yellow)).length = 0 := by
      rw [filter_length_eq_zero_iff]
      intro c hc
      simp only [List.mem_map] at hc
      obtain ⟨p, hp, rfl⟩ := hc
      simpa using hnyel p hp
    have hnotall : ¬ (((d.components.map Prod.snd).filter
        (fun c => c.health = HealthStatus.Green)).length = d.components.length ∧
          0 < d.components.length) := by
      rcases hrest with hemp | ⟨p, hp, hng⟩
      · rintro ⟨-, hpos⟩
        rw [hemp] at hpos
        simp at hpos
      · rintro ⟨hlen, -⟩
        have hlt : ((d.components.map Prod.snd).filter
            (fun c => c.health = HealthStatus.Green)).length
              < (d.components.map Prod.snd).length := by
          rw [List.length_filter_lt_length_iff_exists]
          exact ⟨p.2, List.mem_map_of_mem _ hp, by simpa using hng⟩
        rw [hlen] at hlt
        simp at hlt
    simp only [StackDiagnostics.health_summary, compute_andon_status]
    rw [if_neg (by omega), if_neg (by omega), if_neg hnotall]

/-- A concrete registry with two green components and one red one, used to
instantiate the Andon escalation theorem. -/
def exampleDiag : StackDiagnostics :=
  { components :=
      [("a", ⟨"a", "1.0", StackLayer.Compute, HealthStatus.Green,
          ComponentMetrics.default⟩),
       ("b", ⟨"b", "1.0", StackLayer.Ml, HealthStatus.Green,
          ComponentMetrics.default⟩),
       ("c", ⟨"c", "1.0", StackLayer.Orchestration, HealthStatus.Red,
          ComponentMetrics.default⟩)]
    graph := none
    metrics := GraphMetrics.default
    anomalies := [] }

theorem andon_escalation_witness :
    (∃ p ∈ exampleDiag.components, p.2.health = HealthStatus.Red) ∧
      exampleDiag.health_summary.andon_status = AndonStatus.Red ∧
      exampleDiag.health_summary.all_healthy = false := by
  have hex : ∃ p ∈ exampleDiag.components, p.2.health = HealthStatus.Red := by
    refine ⟨("c", ⟨"c", "1.0", StackLayer.Orchestration, HealthStatus.Red,
      ComponentMetrics.default⟩), ?_, rfl⟩
    simp [exampleDiag]
  exact ⟨hex, ((andon_escalation exampleDiag).1 hex).1,
    ((andon_escalation exampleDiag).1 hex).2⟩

theorem is_critical_iff_witness :
    (Anomaly.new "x" 1 AnomalyCategory.Other "d").is_critical ↔ (1 : ℝ) > 0.8 :=
  is_critical_iff.1 (Anomaly.new "x" 1 AnomalyCategory.Other "d")

-- ============================================================================
-- C2: PageRank mass conservation
-- ============================================================================

lemma finsetSum_listSum_swap {β : Type} (s : Finset String) (l : List β)
    (f : String → β → ℝ) :
    ∑ x ∈ s, (l.map (f x)).sum = (l.map (fun b => ∑ x ∈ s, f x b)).sum := by
  induction l with
  | nil => simp
  | cons b t ih => simp [Finset.sum_add_distrib, ih]

lemma sum_map_filter_eq_sum_ite {β : Type} (l : List β) (q : β → Bool)
    (f : β → ℝ) :
    ((l.filter q).map f).sum = (l.map (fun b => if q b then f b else 0)).sum := by
  induction l with
  | nil => rfl
  | cons b t ih => by_cases h : q b <;> simp [List.filter_cons, h, ih]

lemma list_sum_map_add {β : Type} (l : List β) (f g : β → ℝ) :
    (l.map (fun x => f x + g x)).sum = (l.map f).sum + (l.map g).sum := by
  induction l with
  | nil => simp
  | cons b t ih => simp [ih]; ring

/-- One power-iteration step conserves total PageRank mass when the adjacency
is well formed and every retained out-edge list is duplicate-free. -/
lemma pagerankStep_sum (nodes : List String)
    (adjacency : List (String × List String)) (damping : ℝ) (scores : String → ℝ)
    (hnn : nodes ≠ []) (hnd : nodes.Nodup)
    (hkeys : (adjacency.map Prod.fst).Nodup)
    (hcover : ∀ x ∈ nodes, x ∈ adjacency.map Prod.fst)
    (htgt : ∀ p ∈ adjacency, ∀ t ∈ p.2, t ∈ nodes)
    (hdup : ∀ p ∈ adjacency, p.2.Nodup)
    (hzero : ∀ k, k ∉ nodes → scores k = 0)
    (hsum : (nodes.map scores).sum = 1) :
    (nodes.map (pagerankStep nodes adjacency damping scores)).sum = 1 := by
  have hlen : 0 < nodes.length := List.length_pos.mpr hnn
  have hn : (nodes.length : ℝ) ≠ 0 := Nat.cast_ne_zero.mpr (Nat.pos_iff_ne_zero.mp hlen)
  -- abbreviations matching the step definition
  set tp := (1 - damping) / (nodes.length : ℝ) with htp
  set dang := ((adjacency.filter (fun p => p.2.isEmpty)).map (fun p => scores p.1)).sum
    with hdang
  set dc := damping * dang / (nodes.length : ℝ) with hdc
  set inc := fun (x : String) => (adjacency.map (fun p =>
    if x ∈ p.2 ∧ 0 < p.2.length then scores p.1 / (p.2.length : ℝ) else 0)).sum
    with hinc
  have hstep_eq : ∀ x ∈ nodes,
      pagerankStep nodes adjacency damping scores x = tp + damping * inc x + dc := by
    intro x hx
    simp only [pagerankStep, hinc]
    rw [if_pos hx]
  -- move to a Finset sum over the node set
  have hfin : (nodes.map (pagerankStep nodes adjacency damping scores)).sum
      = ∑ x ∈ nodes.toFinset, (tp + damping * inc x + dc) := by
    rw [← List.sum_toFinset _ hnd]
    exact Finset.sum_congr rfl (fun x hx => hstep_eq x (List.mem_toFinset.mp hx))
  have hcard : nodes.toFinset.card = nodes.length := List.toFinset_card_of_nodup hnd
  -- the incoming-rank sums per adjacency entry collapse to the source score
  have hinner : ∀ p ∈ adjacency,
      (∑ x ∈ nodes.toFinset,
        (if x ∈ p.2 ∧ 0 < p.2.length then scores p.1 / (p.2.length : ℝ) else 0))
        = if p.2.isEmpty then 0 else scores p.1 := by
    intro p hp
    by_cases hnil : p.2 = []
    · simp [hnil]
    · have hplen : 0 < p.2.length := List.length_pos.mpr hnil
      rw [if_neg (by simpa [List.isEmpty_iff] using hnil)]
      have hcond : ∀ x, (if x ∈ p.2 ∧ 0 < p.2.length
          then scores p.1 / (p.2.length : ℝ) else 0)
            = if x ∈ p.2.toFinset then scores p.1 / (p.2.length : ℝ) else 0 := by
        intro x
        by_cases hx : x ∈ p.2 <;> simp [hx, hplen]
      rw [Finset.sum_congr rfl (fun x _ => hcond x), Finset.sum_ite_mem]
      have hss : p.2.toFinset ⊆ nodes.toFinset := by
        intro t ht
        exact List.mem_toFinset.mpr (htgt p hp t (List.mem_toFinset.mp ht))
      rw [Finset.inter_eq_right.mpr hss, Finset.sum_const,
        List.toFinset_card_of_nodup (hdup p hp), nsmul_eq_mul]
      field_simp
  -- total incoming mass over all nodes
  have hswap : ∑ x ∈ nodes.toFinset, inc x
      = (adjacency.map (fun p => if p.2.isEmpty then 0 else scores p.1)).sum := by
    simp only [hinc]
    rw [finsetSum_listSum_swap]
    exact congrArg List.sum (List.map_congr_left (fun p hp => hinner p hp))
  -- dangling mass as an if-sum over all adjacency entries
  have hdang' : dang
      = (adjacency.map (fun p => if p.2.isEmpty then scores p.1 else 0)).sum := by
    rw [hdang, sum_map_filter_eq_sum_ite]
  -- incoming plus dangling mass is the total key mass
  have hkeysum : (adjacency.map (fun p => if p.2.isEmpty then 0 else scores p.1)).sum
      + (adjacency.map (fun p => if p.2.isEmpty then scores p.1 else 0)).sum
      = (adjacency.map (fun p => scores p.1)).sum := by
    rw [← list_sum_map_add]
    refine congrArg List.sum (List.map_congr_left (fun p _ => ?_))
    by_cases h : p.2.isEmpty <;> simp [h]
  -- the key mass equals the node mass: extra keys carry score zero
  have hkeymass : (adjacency.map (fun p => scores p.1)).sum = 1 := by
    have h1 : (adjacency.map (fun p => scores p.1)).sum
        = ((adjacency.map Prod.fst).map scores).sum := by
      rw [List.map_map]
      rfl
    have h2 : ((adjacency.map Prod.fst).map scores).sum
        = ∑ k ∈ (adjacency.map Prod.fst).toFinset, scores k :=
      (List.sum_toFinset _ hkeys).symm
    have h3 : ∑ x ∈ nodes.toFinset, scores x
        = ∑ k ∈ (adjacency.map Prod.fst).toFinset, scores k := by
      refine Finset.sum_subset ?_ ?_
      · intro x hx
        exact List.mem_toFinset.mpr (hcover x (List.mem_toFinset.mp hx))
      · intro x _ hx
        exact hzero x (fun hmem => hx (List.mem_toFinset.mpr hmem))
    have h4 : ∑ x ∈ nodes.toFinset, scores x = 1 := by
      rw [List.sum_toFinset _ hnd]
      exact hsum
    rw [h1, h2, ← h3, h4]
  -- assemble
  rw [hfin]
  rw [Finset.sum_add_distrib, Finset.sum_add_distrib, Finset.sum_const, hcard,
    ← Finset.mul_sum, hswap, Finset.sum_const, hcard, nsmul_eq_mul, nsmul_eq_mul]
  rw [htp, hdc]
  have hmass : damping * (adjacency.map (fun p =>
      if p.2.isEmpty then 0 else scores p.1)).sum
      + (nodes.length : ℝ) * (damping * dang / (nodes.length : ℝ))
      = damping := by
    have : (nodes.length : ℝ) * (damping * dang / (nodes.length : ℝ))
        = damping * dang := by field_simp
    rw [this, hdang', ← mul_add, hkeysum, hkeymass, mul_one]
  have hteleport : (nodes.length : ℝ) * ((1 - damping) / (nodes.length : ℝ))
      = 1 - damping := by field_simp
  rw [hteleport]
  linarith [hmass]

/-- The power-iteration loop (with its early convergence exit) preserves unit
total mass. -/
lemma pagerankLoop_sum (nodes : List String)
    (adjacency : List (String × List String)) (damping : ℝ)
    (hnn : nodes ≠ []) (hnd : nodes.Nodup)
    (hkeys : (adjacency.map Prod.fst).Nodup)
    (hcover : ∀ x ∈ nodes, x ∈ adjacency.map Prod.fst)
    (htgt : ∀ p ∈ adjacency, ∀ t ∈ p.2, t ∈ nodes)
    (hdup : ∀ p ∈ adjacency, p.2.Nodup) :
    ∀ (k : ℕ) (scores : String → ℝ),
      (∀ x, x ∉ nodes → scores x = 0) → (nodes.map scores).sum = 1 →
      (nodes.map (pagerankLoop nodes adjacency damping k scores)).sum = 1 := by
  intro k
  induction k with
  | zero =>
    intro s h0 h1
    simpa [pagerankLoop] using h1
  | succ n ih =>
    intro s h0 h1
    simp only [pagerankLoop]
    have hz : ∀ x, x ∉ nodes → pagerankStep nodes adjacency damping s x = 0 := by
      intro x hx
      simp only [pagerankStep]
      rw [if_neg hx]
    have hs := pagerankStep_sum nodes adjacency damping s hnn hnd hkeys hcover
      htgt hdup h0 h1
    split
    · exact hs
    · exact ih _ hz hs

/-- C2 (amended): for a nonempty duplicate-free registry whose adjacency is
well formed (unique keys covering the components, retained targets are
components) and whose retained out-edge lists contain no duplicate targets,
the PageRank scores over all components sum to exactly 1 after
`compute_pagerank` with the source's parameters — in particular within the
claimed 1e-2 tolerance. -/
theorem pagerank_sum_one (nodes : List String)
    (adjacency : List (String × List String))
    (hnn : nodes ≠ []) (hnd : nodes.Nodup)
    (hkeys : (adjacency.map Prod.fst).Nodup)
    (hcover : ∀ x ∈ nodes, x ∈ adjacency.map Prod.fst)
    (htgt : ∀ p ∈ adjacency, ∀ t ∈ p.2, t ∈ nodes)
    (hdup : ∀ p ∈ adjacency, p.2.Nodup) :
    (nodes.map (compute_pagerank nodes adjacency 0.85 100)).sum = 1 := by
  have hlen : 0 < nodes.length := List.length_pos.mpr hnn
  have hn : (nodes.length : ℝ) ≠ 0 := Nat.cast_ne_zero.mpr (Nat.pos_iff_ne_zero.mp hlen)
  rw [compute_pagerank, if_neg (Nat.pos_iff_ne_zero.mp hlen)]
  apply pagerankLoop_sum nodes adjacency 0.85 hnn hnd hkeys hcover htgt hdup
  · intro x hx
    simp [hx]
  · have hconst : nodes.map (fun k => if k ∈ nodes then 1 / (nodes.length : ℝ) else 0)
        = nodes.map (fun _ => 1 / (nodes.length : ℝ)) :=
      List.map_congr_left (fun x hx => by rw [if_pos hx])
    rw [hconst, List.map_const', List.sum_replicate, nsmul_eq_mul]
    field_simp

theorem pagerank_sum_one_witness :
    ((["a"] : List String) ≠ [] ∧ (["a"] : List String).Nodup ∧
      (∀ p ∈ ([("a", ([] : List String))] : List (String × List String)), p.2.Nodup)) ∧
      ((["a"] : List String).map
        (compute_pagerank ["a"] [("a", ([] : List String))] 0.85 100)).sum = 1 := by
  refine ⟨⟨by simp, by simp, by simp⟩, ?_⟩
  apply pagerank_sum_one
  · simp
  · simp
  · simp
  · intro x hx
    simpa using hx
  · intro p hp t ht
    simp at hp
    rw [hp] at ht
    simp at ht
  · intro p hp
    simp at hp
    rw [hp]
    simp

/-- At the one-node registry whose single component lists itself twice as a
dependency, one power-iteration step sends score `s` to `0.15 + 0.425 * s`:
the duplicated target is counted once by `contains` but the out-degree counts
it twice, so half the rank mass leaks every iteration. -/
lemma dup_edge_step (scores : String → ℝ) :
    pagerankStep ["a"] [("a", ["a", "a"])] 0.85 scores "a"
      = 0.15 + 0.425 * scores "a" := by
  simp [pagerankStep]
  norm_num
  ring

/-- Once the score is at most `0.575`, the loop keeps it at most `0.575`. -/
lemma dup_edge_loop_le :
    ∀ (k : ℕ) (scores : String → ℝ), scores "a" ≤ 0.575 →
      pagerankLoop ["a"] [("a", ["a", "a"])] 0.85 k scores "a" ≤ 0.575 := by
  intro k
  induction k with
  | zero =>
    intro s h
    simpa [pagerankLoop] using h
  | succ n ih =>
    intro s h
    simp only [pagerankLoop]
    have hs := dup_edge_step s
    split
    · rw [hs]
      linarith
    · apply ih
      rw [hs]
      linarith

/-- One unfolding of the power-iteration loop. -/
lemma pagerankLoop_succ (nodes : List String)
    (adjacency : List (String × List String)) (damping : ℝ) (k : ℕ)
    (scores : String → ℝ) :
    pagerankLoop nodes adjacency damping (k + 1) scores
      = if (nodes.map (fun i =>
            |pagerankStep nodes adjacency damping scores i - scores i|)).sum < 1e-6
        then pagerankStep nodes adjacency damping scores
        else pagerankLoop nodes adjacency damping k
          (pagerankStep nodes adjacency damping scores) := rfl

/-- C2 counterexample: on the nonempty registry `{a}` whose adjacency gives
`a` the duplicated out-edge list `[a, a]`, the PageRank scores after
`compute_pagerank` (damping 0.85, 100 iterations, as called by
`compute_metrics`) sum to at most 0.575 — not to 1 within the claimed 1e-2
tolerance. -/
theorem pagerank_duplicate_edge_counterexample :
    ¬ (|((["a"] : List String).map
        (compute_pagerank ["a"] [("a", ["a", "a"])] 0.85 100)).sum - 1| ≤ 1e-2) := by
  intro habs
  have hsum : ((["a"] : List String).map
      (compute_pagerank ["a"] [("a", ["a", "a"])] 0.85 100)).sum
        = compute_pagerank ["a"] [("a", ["a", "a"])] 0.85 100 "a" := by
    simp
  rw [hsum] at habs
  have hle : compute_pagerank ["a"] [("a", ["a", "a"])] 0.85 100 "a" ≤ 0.575 := by
    rw [compute_pagerank, if_neg (by simp)]
    rw [show (100 : ℕ) = 99 + 1 from rfl, pagerankLoop_succ]
    have hs : pagerankStep ["a"] [("a", ["a", "a"])] 0.85
        (fun k => if k ∈ (["a"] : List String)
          then 1 / (((["a"] : List String).length : ℕ) : ℝ) else 0) "a" = 0.575 := by
      rw [dup_edge_step]
      norm_num
    split
    · rw [hs]
    · apply dup_edge_loop_le
      rw [hs]
  rw [abs_le] at habs
  have := habs.1
  norm_num at this
  linarith

-- ============================================================================
-- C7: `compute_metrics` on an empty registry
-- ============================================================================

lemma compute_metrics_components (d : StackDiagnostics) :
    d.compute_metrics.components = d.components := by
  rw [StackDiagnostics.compute_metrics]
  split <;> rfl

lemma add_component_ne_nil (d : StackDiagnostics) (node : ComponentNode) :
    (d.add_component node).components ≠ [] := by
  rw [StackDiagnostics.add_component]
  split
  · next h =>
    intro hemp
    simp only [List.map_eq_nil_iff] at hemp
    rw [hemp] at h
    simp at h
  · intro hemp
    simp at hemp

/-- No reachable state has a nonempty metrics record together with an empty
registry: components are never removed, and `compute_metrics` leaves the
metrics untouched while the registry is empty. -/
lemma reachable_empty_metrics {d : StackDiagnostics}
    (h : StackDiagnostics.Reachable d) :
    d.components = [] → d.metrics = GraphMetrics.default := by
  induction h with
  | new => intro _; rfl
  | add_component node _ _ =>
    intro hemp
    exact absurd hemp (add_component_ne_nil _ node)
  | set_graph g _ ih => exact fun hemp => ih hemp
  | add_anomaly a _ ih => exact fun hemp => ih hemp
  | compute_metrics _ ih =>
    next d' _ =>
    intro hemp
    rw [compute_metrics_components] at hemp
    have hno : d'.compute_metrics = d' := by
      rw [StackDiagnostics.compute_metrics, if_pos (by simp [hemp])]
    rw [hno]
    exact ih hemp

/-- C7: on every reachable engine state whose registry is empty,
`compute_metrics` succeeds (in the source the `Result` is always `Ok`; the
embedding is a total function) and the resulting metrics have every map
empty and every scalar zero. -/
theorem compute_metrics_empty_registry (d : StackDiagnostics)
    (hreach : StackDiagnostics.Reachable d) (hempty : d.components = []) :
    d.compute_metrics.metrics.pagerank = [] ∧
      d.compute_metrics.metrics.betweenness = [] ∧
      d.compute_metrics.metrics.clustering = [] ∧
      d.compute_metrics.metrics.communities = [] ∧
      d.compute_metrics.metrics.depth_map = [] ∧
      d.compute_metrics.metrics.total_nodes = 0 ∧
      d.compute_metrics.metrics.total_edges = 0 ∧
      d.compute_metrics.metrics.density = 0 ∧
      d.compute_metrics.metrics.avg_degree = 0 ∧
      d.compute_metrics.metrics.max_depth = 0 := by
  have hno : d.compute_metrics = d := by
    rw [StackDiagnostics.compute_metrics, if_pos (by simp [hempty])]
  have hm := reachable_empty_metrics hreach hempty
  rw [hno, hm]
  exact ⟨rfl, rfl, rfl, rfl, rfl, rfl, rfl, rfl, rfl, rfl⟩

theorem compute_metrics_empty_registry_witness :
    (StackDiagnostics.new.components = []) ∧
      StackDiagnostics.new.compute_metrics.metrics.pagerank = [] ∧
      StackDiagnostics.new.compute_metrics.metrics.total_nodes = 0 ∧
      StackDiagnostics.new.compute_metrics.metrics.density = 0 :=
  ⟨rfl,
    (compute_metrics_empty_registry StackDiagnostics.new
      StackDiagnostics.Reachable.new rfl).1,
    (compute_metrics_empty_registry StackDiagnostics.new
      StackDiagnostics.Reachable.new rfl).2.2.2.2.2.1,
    (compute_metrics_empty_registry StackDiagnostics.new
      StackDiagnostics.Reachable.new rfl).2.2.2.2.2.2.2.1⟩
